import Mathlib

/-!
Verification development for the Python library of the
Multi-Agent-Coverage-Control repository.

The library has two modules:

* `VoronoiLib.py`, holding the value holder `grad_2d` and the boundary
  integral differentiator `Voronoi2D_calCVTPartialDerivative`, which builds
  the two 2x2 Jacobians of a Voronoi cell centroid (with respect to the own
  position and with respect to one neighbor position) by numerical
  quadrature of closed form kernel integrands over the shared edge.
* `controlAlgo.py`, holding the Lyapunov gradient assembler
  `Voronoi2D_cal_dV_dz` and the bounded control law `compute_Control_Input`.

Embedding conventions:

* Python float arithmetic is modelled exactly: by the rationals in
  `controlAlgo` (whose computations are purely rational, so every guard is
  decidable and every run is executable) and by the reals in `VoronoiLib`
  (whose computations involve square roots and integrals).
* `scipy.integrate.quad f 0 1` is modelled as the exact interval integral
  of the integrand over [0, 1].
* A division whose denominator is zero is a fault of the Python code
  (ZeroDivisionError for scalar floats; with the numpy array inputs used by
  the repository tests the same division is silent and yields a non finite
  value, still never a deliberate domain error).  The models therefore
  return `Except`, faulting with `divisionByZero` exactly where the source
  divides by zero, and the error type also carries the constructor
  `degenerateGeometry` so that the specification sentence "raises a
  degenerate geometry domain error" is expressible; the source never
  produces it since it contains no such check.
* The `assert(Vi >= 0)` statement of the source is modelled by the
  `assertionFailed` fault.
-/

/-! ## Plain 2d linear algebra used by both modules

A 2x2 numpy array is modelled by the structure `Mat2` with entries named
after their index pairs ((0,0), (0,1), (1,0), (1,1)), and a length 2 numpy
vector by a plain pair.  The handful of numpy operations the source uses
(matmul with a vector on either side, transpose, identity, elementwise
vector sum, difference and scaling, dot product) are spelt out below.
-/

structure Mat2 (α : Type) where
  xx : α
  xy : α
  yx : α
  yy : α
deriving DecidableEq, Repr

def Mat2.transpose {α : Type} (M : Mat2 α) : Mat2 α :=
  ⟨M.xx, M.yx, M.xy, M.yy⟩

def idMat2 {α : Type} [Zero α] [One α] : Mat2 α :=
  ⟨1, 0, 0, 1⟩

def msub {α : Type} [Sub α] (M N : Mat2 α) : Mat2 α :=
  ⟨M.xx - N.xx, M.xy - N.xy, M.yx - N.yx, M.yy - N.yy⟩

/-- Model of `np.matmul M v` (matrix times column vector). -/
def mulVec {α : Type} [Mul α] [Add α] (M : Mat2 α) (v : α × α) : α × α :=
  (M.xx * v.1 + M.xy * v.2, M.yx * v.1 + M.yy * v.2)

/-- Model of `np.matmul (np.transpose v) M` (row vector times matrix). -/
def vecMul {α : Type} [Mul α] [Add α] (v : α × α) (M : Mat2 α) : α × α :=
  (v.1 * M.xx + v.2 * M.yx, v.1 * M.xy + v.2 * M.yy)

def dot {α : Type} [Mul α] [Add α] (v w : α × α) : α :=
  v.1 * w.1 + v.2 * w.2

def vadd {α : Type} [Add α] (v w : α × α) : α × α :=
  (v.1 + w.1, v.2 + w.2)

def vsub {α : Type} [Sub α] (v w : α × α) : α × α :=
  (v.1 - w.1, v.2 - w.2)

/-- Elementwise scaling `v * c` of a numpy vector by a scalar. -/
def vsmul {α : Type} [Mul α] (c : α) (v : α × α) : α × α :=
  (c * v.1, c * v.2)

def vneg {α : Type} [Neg α] (v : α × α) : α × α :=
  (-v.1, -v.2)

/-! ## Model of `controlAlgo.py`: `Voronoi2D_cal_dV_dz`

The function receives the private data of the agent (centroid `C`,
position `z`, self Jacobian `dCi_dzi`), the list of cross Jacobians
`dCjdzi_Arr`, the boundary coefficient rows (each row `(a, b, c)` of the
numpy array `boundaryCoeff`), and the weighting matrix `Q_2x2` of the
control parameter record (the only field it reads).  All arithmetic is
rational, so the model is executable.
-/

inductive CtrlFault where
  | divisionByZero
  | assertionFailed
deriving DecidableEq, Repr

/-- The margin `hj = boundaryCoeff[j,2] - (boundaryCoeff[j,0]*zi[0] +
boundaryCoeff[j,1]*zi[1])` computed in the loop of `Voronoi2D_cal_dV_dz`. -/
def marginOf (row : ℚ × ℚ × ℚ) (z : ℚ × ℚ) : ℚ :=
  row.2.2 - (row.1 * z.1 + row.2.1 * z.2)

/-- The accumulation loop of `Voronoi2D_cal_dV_dz`: starting from
`sum_1_div_Hj = 0` and `sum_aj_2HjSquared = (0, 0)`, each row adds
`1/hj` to the former and `(a, b) / hj**2 / 2` to the latter. -/
def sumS (boundaryCoeff : List (ℚ × ℚ × ℚ)) (z : ℚ × ℚ) : ℚ × (ℚ × ℚ) :=
  boundaryCoeff.foldl
    (fun acc row =>
      (acc.1 + 1 / marginOf row z,
        (acc.2.1 + row.1 / (marginOf row z) ^ 2 / 2,
          acc.2.2 + row.2.1 / (marginOf row z) ^ 2 / 2)))
    (0, (0, 0))

/-- Model of `Voronoi2D_cal_dV_dz(vorPrivateData, dCjdzi_Arr, boundaryCoeff,
controlParameter)`.  The record arguments are flattened: `C` and `z` and
`dCi_dzi` are the fields of `vorPrivateData`, `Q_2x2` the field of
`controlParameter` that the function reads.  A zero margin makes the source
divide by zero at `1/hj`, modelled as the `divisionByZero` fault; the
`assert(Vi >= 0)` statement is modelled as the `assertionFailed` fault when
`Vi < 0`.  Otherwise the function returns `[Vi, dVidzi, dVidzj_Arr]`. -/
def Voronoi2D_cal_dV_dz (C z : ℚ × ℚ) (dCi_dzi : Mat2 ℚ)
    (dCjdzi_Arr : List (Mat2 ℚ)) (boundaryCoeff : List (ℚ × ℚ × ℚ))
    (Q_2x2 : Mat2 ℚ) : Except CtrlFault (ℚ × (ℚ × ℚ) × List (ℚ × ℚ)) :=
  if boundaryCoeff.any (fun row => marginOf row z = 0) then
    .error .divisionByZero
  else
    let S := sumS boundaryCoeff z
    let sum_1_div_Hj := S.1
    let sum_aj_2HjSquared := S.2
    let Q_zDiff_div_hj := vsmul sum_1_div_Hj (mulVec Q_2x2 (vsub z C))
    let Vi := dot (vecMul (vsub z C) Q_2x2) (vsub z C) * sum_1_div_Hj / 2
    if Vi < 0 then .error .assertionFailed
    else
      let dVidzi :=
        vadd (mulVec (msub idMat2 dCi_dzi.transpose) Q_zDiff_div_hj)
          (vsmul (dot (vecMul (vsub z C) Q_2x2) (vsub z C)) sum_aj_2HjSquared)
      let dVidzj_Arr :=
        dCjdzi_Arr.map (fun dCjdzi => vneg (mulVec dCjdzi.transpose Q_zDiff_div_hj))
      .ok (Vi, dVidzi, dVidzj_Arr)

/-! Specification side quantities for the gradient assembler, written from
the words of the specification (section 4.2): `S1 = sum of 1/h_k`,
`S2 = sum of (a_k, b_k) / (2 h_k^2)`, and the own position gradient
`(I - selfJacobian^t) (Q (z - C) S1) + S2 ((z-C)^t Q (z-C))`. -/

def specS1 (boundaryCoeff : List (ℚ × ℚ × ℚ)) (z : ℚ × ℚ) : ℚ :=
  (boundaryCoeff.map (fun row => 1 / marginOf row z)).sum

def specS2 (boundaryCoeff : List (ℚ × ℚ × ℚ)) (z : ℚ × ℚ) : ℚ × ℚ :=
  ((boundaryCoeff.map (fun row =>
    ((row.1 / (2 * (marginOf row z) ^ 2),
      row.2.1 / (2 * (marginOf row z) ^ 2)) : ℚ × ℚ))).foldr vadd (0, 0))

/-- The quadratic form `(z - C)^t Q (z - C)` of the specification. -/
def specQuadForm (Q : Mat2 ℚ) (d : ℚ × ℚ) : ℚ :=
  dot (vecMul d Q) d

def specGradSelf (C z : ℚ × ℚ) (dCi_dzi : Mat2 ℚ)
    (boundaryCoeff : List (ℚ × ℚ × ℚ)) (Q : Mat2 ℚ) : ℚ × ℚ :=
  vadd
    (mulVec (msub idMat2 dCi_dzi.transpose)
      (vsmul (specS1 boundaryCoeff z) (mulVec Q (vsub z C))))
    (vsmul (specQuadForm Q (vsub z C)) (specS2 boundaryCoeff z))

/-- The per neighbor gradient of the specification:
`dVidzj[j] = -(J_j)^t (Q (z - C) S1)`. -/
def specGradNeighbor (C z : ℚ × ℚ) (J : Mat2 ℚ)
    (boundaryCoeff : List (ℚ × ℚ × ℚ)) (Q : Mat2 ℚ) : ℚ × ℚ :=
  vneg (mulVec J.transpose (vsmul (specS1 boundaryCoeff z) (mulVec Q (vsub z C))))

/-! ## Model of `VoronoiLib.py`

The value holder `grad_2d` and the boundary integral differentiator
`Voronoi2D_calCVTPartialDerivative`, over the reals.
-/

/-- The class `grad_2d`: four scalar attributes holding the entries of a
2x2 matrix. -/
structure grad_2d where
  dx_dx : ℝ
  dx_dy : ℝ
  dy_dx : ℝ
  dy_dy : ℝ

/-- The constructor `grad_2d(mat2x2)`: reads the entries
`mat2x2[0,0]`, `mat2x2[0,1]`, `mat2x2[1,0]`, `mat2x2[1,1]`. -/
def grad_2d.init (mat2x2 : Mat2 ℝ) : grad_2d :=
  ⟨mat2x2.xx, mat2x2.xy, mat2x2.yx, mat2x2.yy⟩

/-- The method `npForm`: rebuilds the 2x2 array from the four attributes. -/
def grad_2d.npForm (g : grad_2d) : Mat2 ℝ :=
  ⟨g.dx_dx, g.dx_dy, g.dy_dx, g.dy_dy⟩

/-- The call operator of `grad_2d`, identical to `npForm`. -/
def grad_2d.callOp (g : grad_2d) : Mat2 ℝ :=
  ⟨g.dx_dx, g.dx_dy, g.dy_dx, g.dy_dy⟩

noncomputable def dq__dZix_n_func (qX ziX dZiZj : ℝ) : ℝ :=
  (qX - ziX) / dZiZj

noncomputable def dq__dZiy_n_func (qY ziY dZiZj : ℝ) : ℝ :=
  (qY - ziY) / dZiZj

noncomputable def dq__dZjx_n_func (qX zjX dZiZj : ℝ) : ℝ :=
  (zjX - qX) / dZiZj

noncomputable def dq__dZjy_n_func (qY zjY dZiZj : ℝ) : ℝ :=
  (zjY - qY) / dZiZj

/-- Integration parameter t running from 0 to 1 along the edge. -/
def XtoT_func (t v1x v2x : ℝ) : ℝ :=
  v1x + (v2x - v1x) * t

def YtoT_func (t v1y v2y : ℝ) : ℝ :=
  v1y + (v2y - v1y) * t

noncomputable def dCix_dzix_func (t v1x v2x ziX dZiZj dqTodtParam : ℝ) : ℝ :=
  XtoT_func t v1x v2x * dq__dZix_n_func (XtoT_func t v1x v2x) ziX dZiZj * dqTodtParam

noncomputable def dCiy_dzix_func (t v1x v2x v1y v2y ziX dZiZj dqTodtParam : ℝ) : ℝ :=
  YtoT_func t v1y v2y * dq__dZix_n_func (XtoT_func t v1x v2x) ziX dZiZj * dqTodtParam

noncomputable def dCix_dziy_func (t v1x v2x v1y v2y ziY dZiZj dqTodtParam : ℝ) : ℝ :=
  XtoT_func t v1x v2x * dq__dZiy_n_func (YtoT_func t v1y v2y) ziY dZiZj * dqTodtParam

noncomputable def dCiy_dziy_func (t v1y v2y ziY dZiZj dqTodtParam : ℝ) : ℝ :=
  YtoT_func t v1y v2y * dq__dZiy_n_func (YtoT_func t v1y v2y) ziY dZiZj * dqTodtParam

noncomputable def dCix_dzjx_func (t v1x v2x zjx dZiZj dqTodtParam : ℝ) : ℝ :=
  XtoT_func t v1x v2x * dq__dZjx_n_func (XtoT_func t v1x v2x) zjx dZiZj * dqTodtParam

noncomputable def dCiy_dzjx_func (t v1x v2x v1y v2y zjx dZiZj dqTodtParam : ℝ) : ℝ :=
  YtoT_func t v1y v2y * dq__dZjx_n_func (XtoT_func t v1x v2x) zjx dZiZj * dqTodtParam

noncomputable def dCix_dzjy_func (t v1x v2x v1y v2y zjy dZiZj dqTodtParam : ℝ) : ℝ :=
  XtoT_func t v1x v2x * dq__dZjy_n_func (YtoT_func t v1y v2y) zjy dZiZj * dqTodtParam

noncomputable def dCiy_dzjy_func (t v1y v2y zjy dZiZj dqTodtParam : ℝ) : ℝ :=
  YtoT_func t v1y v2y * dq__dZjy_n_func (YtoT_func t v1y v2y) zjy dZiZj * dqTodtParam

/-- The faults observable at the differentiator boundary.  The source code
only ever divides by zero (no check of any kind is present in it); the
constructor `degenerateGeometry` is the deliberate domain error that the
specification asks for, and is never produced by the model of the code. -/
inductive VorFault where
  | divisionByZero
  | degenerateGeometry
deriving DecidableEq, Repr

open Classical in
/-- Model of `Voronoi2D_calCVTPartialDerivative(thisCoord_2d, thisCVT_2d,
mVi, adjCoord_2d, vertex1_2d, vertex2_2d)`.  Each of the eight
`integrate.quad` calls is the exact integral of the corresponding source
integrand over t in [0, 1].  The only denominators of the source are
`distanceZiZj` (inside every kernel) and `mVi` (in every entry); when one
of them is zero the Python division faults, modelled by the
`divisionByZero` error.  No other check exists in the source: in
particular a zero length edge (`dqTodtParam = 0`) or a negative mass is
not examined. -/
noncomputable def Voronoi2D_calCVTPartialDerivative (thisCoord_2d thisCVT_2d : ℝ × ℝ)
    (mVi : ℝ) (adjCoord_2d vertex1_2d vertex2_2d : ℝ × ℝ) :
    Except VorFault (Mat2 ℝ × Mat2 ℝ) :=
  let distanceZiZj := Real.sqrt ((thisCoord_2d.1 - adjCoord_2d.1) ^ 2 +
    (thisCoord_2d.2 - adjCoord_2d.2) ^ 2)
  let v1x := vertex1_2d.1
  let v2x := vertex2_2d.1
  let v1y := vertex1_2d.2
  let v2y := vertex2_2d.2
  let dqTodtParam := Real.sqrt ((v2x - v1x) ^ 2 + (v2y - v1y) ^ 2)
  if distanceZiZj = 0 then .error .divisionByZero
  else if mVi = 0 then .error .divisionByZero
  else
    let dCi_dzix_secondTermInt := ∫ t in (0:ℝ)..1,
      dq__dZix_n_func (XtoT_func t v1x v2x) thisCoord_2d.1 distanceZiZj * dqTodtParam
    let dCix_dzix_firstTermInt := ∫ t in (0:ℝ)..1,
      dCix_dzix_func t v1x v2x thisCoord_2d.1 distanceZiZj dqTodtParam
    let dCiy_dzix_firstTermInt := ∫ t in (0:ℝ)..1,
      dCiy_dzix_func t v1x v2x v1y v2y thisCoord_2d.1 distanceZiZj dqTodtParam
    let dCix_dzix := (dCix_dzix_firstTermInt - dCi_dzix_secondTermInt * thisCVT_2d.1) / mVi
    let dCiy_dzix := (dCiy_dzix_firstTermInt - dCi_dzix_secondTermInt * thisCVT_2d.2) / mVi
    let dCi_dziy_secondTermInt := ∫ t in (0:ℝ)..1,
      dq__dZiy_n_func (YtoT_func t v1y v2y) thisCoord_2d.2 distanceZiZj * dqTodtParam
    let dCix_dziy_firstTermInt := ∫ t in (0:ℝ)..1,
      dCix_dziy_func t v1x v2x v1y v2y thisCoord_2d.2 distanceZiZj dqTodtParam
    let dCiy_dziy_firstTermInt := ∫ t in (0:ℝ)..1,
      dCiy_dziy_func t v1y v2y thisCoord_2d.2 distanceZiZj dqTodtParam
    let dCix_dziy := (dCix_dziy_firstTermInt - dCi_dziy_secondTermInt * thisCVT_2d.1) / mVi
    let dCiy_dziy := (dCiy_dziy_firstTermInt - dCi_dziy_secondTermInt * thisCVT_2d.2) / mVi
    let dCi_dzjx_secondTermInt := ∫ t in (0:ℝ)..1,
      dq__dZjx_n_func (XtoT_func t v1x v2x) adjCoord_2d.1 distanceZiZj * dqTodtParam
    let dCix_dzjx_firstTermInt := ∫ t in (0:ℝ)..1,
      dCix_dzjx_func t v1x v2x adjCoord_2d.1 distanceZiZj dqTodtParam
    let dCiy_dzjx_firstTermInt := ∫ t in (0:ℝ)..1,
      dCiy_dzjx_func t v1x v2x v1y v2y adjCoord_2d.1 distanceZiZj dqTodtParam
    let dCix_dzjx := (dCix_dzjx_firstTermInt - dCi_dzjx_secondTermInt * thisCVT_2d.1) / mVi
    let dCiy_dzjx := (dCiy_dzjx_firstTermInt - dCi_dzjx_secondTermInt * thisCVT_2d.2) / mVi
    let dCi_dzjy_secondTermInt := ∫ t in (0:ℝ)..1,
      dq__dZjy_n_func (YtoT_func t v1y v2y) adjCoord_2d.2 distanceZiZj * dqTodtParam
    let dCix_dzjy_firstTermInt := ∫ t in (0:ℝ)..1,
      dCix_dzjy_func t v1x v2x v1y v2y adjCoord_2d.2 distanceZiZj dqTodtParam
    let dCiy_dzjy_firstTermInt := ∫ t in (0:ℝ)..1,
      dCiy_dzjy_func t v1y v2y adjCoord_2d.2 distanceZiZj dqTodtParam
    let dCix_dzjy := (dCix_dzjy_firstTermInt - dCi_dzjy_secondTermInt * thisCVT_2d.1) / mVi
    let dCiy_dzjy := (dCiy_dzjy_firstTermInt - dCi_dzjy_secondTermInt * thisCVT_2d.2) / mVi
    let dCi_dzi_AdjacentJ : Mat2 ℝ := ⟨dCix_dzix, dCix_dziy, dCiy_dzix, dCiy_dziy⟩
    let dCi_dzj : Mat2 ℝ := ⟨dCix_dzjx, dCix_dzjy, dCiy_dzjx, dCiy_dzjy⟩
    .ok (dCi_dzi_AdjacentJ, dCi_dzj)

/-! Specification side quantities for the differentiator, written from the
words of the specification (section 4.1): the edge is parametrized linearly
from `edgeV1` to `edgeV2` over t in [0, 1]; the kernel of a self entry is
`(point_on_edge - self_coordinate) / interAgentDistance` and that of a
cross entry is `(neighbor_coordinate - point_on_edge) / interAgentDistance`;
each entry is `(integral of coordinate(t) kernel(t) L - (integral of
kernel(t) L) centroid_component) / cellMass` with `L` the edge length. -/

noncomputable def specInterAgentDistance (selfPos neighborPos : ℝ × ℝ) : ℝ :=
  Real.sqrt ((selfPos.1 - neighborPos.1) ^ 2 + (selfPos.2 - neighborPos.2) ^ 2)

def specEdgePoint (edgeV1 edgeV2 : ℝ × ℝ) (t : ℝ) : ℝ × ℝ :=
  (edgeV1.1 + (edgeV2.1 - edgeV1.1) * t, edgeV1.2 + (edgeV2.2 - edgeV1.2) * t)

noncomputable def specEdgeLength (edgeV1 edgeV2 : ℝ × ℝ) : ℝ :=
  Real.sqrt ((edgeV2.1 - edgeV1.1) ^ 2 + (edgeV2.2 - edgeV1.2) ^ 2)

/-- One Jacobian entry in the shape stated by the specification. -/
noncomputable def specEntry (coord kernel : ℝ → ℝ) (L centroidComp cellMass : ℝ) : ℝ :=
  ((∫ t in (0:ℝ)..1, coord t * kernel t * L) -
    (∫ t in (0:ℝ)..1, kernel t * L) * centroidComp) / cellMass

noncomputable def specSelfJacobian (selfPos centroid : ℝ × ℝ) (cellMass : ℝ)
    (neighborPos edgeV1 edgeV2 : ℝ × ℝ) : Mat2 ℝ :=
  let d := specInterAgentDistance selfPos neighborPos
  let L := specEdgeLength edgeV1 edgeV2
  let q := specEdgePoint edgeV1 edgeV2
  let kx := fun t => ((q t).1 - selfPos.1) / d
  let ky := fun t => ((q t).2 - selfPos.2) / d
  ⟨specEntry (fun t => (q t).1) kx L centroid.1 cellMass,
    specEntry (fun t => (q t).1) ky L centroid.1 cellMass,
    specEntry (fun t => (q t).2) kx L centroid.2 cellMass,
    specEntry (fun t => (q t).2) ky L centroid.2 cellMass⟩

noncomputable def specCrossJacobian (selfPos centroid : ℝ × ℝ) (cellMass : ℝ)
    (neighborPos edgeV1 edgeV2 : ℝ × ℝ) : Mat2 ℝ :=
  let d := specInterAgentDistance selfPos neighborPos
  let L := specEdgeLength edgeV1 edgeV2
  let q := specEdgePoint edgeV1 edgeV2
  let kx := fun t => (neighborPos.1 - (q t).1) / d
  let ky := fun t => (neighborPos.2 - (q t).2) / d
  ⟨specEntry (fun t => (q t).1) kx L centroid.1 cellMass,
    specEntry (fun t => (q t).1) ky L centroid.1 cellMass,
    specEntry (fun t => (q t).2) kx L centroid.2 cellMass,
    specEntry (fun t => (q t).2) ky L centroid.2 cellMass⟩

/-! ## Model of `controlAlgo.py`: `compute_Control_Input` -/

/-- The bounded odd sigmoid `lambda x, eps: x / (abs(x) + eps)`. -/
noncomputable def sigmoid_func (x eps : ℝ) : ℝ :=
  x / (|x| + eps)

/-- Model of `compute_Control_Input(w0, theta, dV_dzi, controlParameter)`;
the fields `P` and `eps` of the control parameter record are passed
directly. -/
noncomputable def compute_Control_Input (w0 theta : ℝ) (dV_dzi : ℝ × ℝ)
    (P eps : ℝ) : ℝ :=
  w0 + P * w0 *
    sigmoid_func (dV_dzi.1 * Real.cos theta + dV_dzi.2 * Real.sin theta) eps

/-- Whether an `Except` value is a normal result. -/
def exceptIsOk {ε α : Type} : Except ε α → Bool
  | .ok _ => true
  | .error _ => false

/-! ## Helper lemmas -/

theorem dist_sqrt_ne_zero {p q : ℝ × ℝ} (h : p ≠ q) :
    Real.sqrt ((p.1 - q.1) ^ 2 + (p.2 - q.2) ^ 2) ≠ 0 := by
  have hne : p.1 ≠ q.1 ∨ p.2 ≠ q.2 := by
    by_contra hc
    push_neg at hc
    exact h (Prod.ext_iff.mpr ⟨hc.1, hc.2⟩)
  have h1 : 0 < (p.1 - q.1) ^ 2 + (p.2 - q.2) ^ 2 := by
    rcases hne with h' | h'
    · exact add_pos_of_pos_of_nonneg (sq_pos_of_ne_zero (sub_ne_zero.mpr h')) (sq_nonneg _)
    · exact add_pos_of_nonneg_of_pos (sq_nonneg _) (sq_pos_of_ne_zero (sub_ne_zero.mpr h'))
  exact ne_of_gt (Real.sqrt_pos.mpr h1)

/-! ## Claim C1 -/

/-- Claim C1: for every input with positive cell mass, distinct self and
neighbor positions, and distinct edge vertices, the differentiator returns
exactly the specification Jacobians: each self entry is
`(integral of coordinate(t) kernel(t) L - (integral of kernel(t) L)
centroid_component) / cellMass` with kernel
`(point_on_edge - self_coordinate) / interAgentDistance`, and each cross
entry the same with kernel
`(neighbor_coordinate - point_on_edge) / interAgentDistance`. -/
theorem claim_C1_jacobian_entries (thisCoord_2d thisCVT_2d : ℝ × ℝ) (mVi : ℝ)
    (adjCoord_2d vertex1_2d vertex2_2d : ℝ × ℝ) (hm : 0 < mVi)
    (hz : thisCoord_2d ≠ adjCoord_2d) (_hv : vertex1_2d ≠ vertex2_2d) :
    Voronoi2D_calCVTPartialDerivative thisCoord_2d thisCVT_2d mVi adjCoord_2d
        vertex1_2d vertex2_2d =
      .ok (specSelfJacobian thisCoord_2d thisCVT_2d mVi adjCoord_2d vertex1_2d vertex2_2d,
        specCrossJacobian thisCoord_2d thisCVT_2d mVi adjCoord_2d vertex1_2d vertex2_2d) := by
  have hd := dist_sqrt_ne_zero hz
  have hm' : mVi ≠ 0 := ne_of_gt hm
  simp only [Voronoi2D_calCVTPartialDerivative, specSelfJacobian, specCrossJacobian,
    specEntry, specInterAgentDistance, specEdgeLength, specEdgePoint,
    dCix_dzix_func, dCiy_dzix_func, dCix_dziy_func, dCiy_dziy_func,
    dCix_dzjx_func, dCiy_dzjx_func, dCix_dzjy_func, dCiy_dzjy_func,
    dq__dZix_n_func, dq__dZiy_n_func, dq__dZjx_n_func, dq__dZjy_n_func,
    XtoT_func, YtoT_func]
  rw [if_neg hd, if_neg hm']

/-- Witness for claim C1 at a concrete nondegenerate input. -/
theorem claim_C1_jacobian_entries_witness :
    (0:ℝ) < 1 ∧ (((0:ℝ), (0:ℝ)) : ℝ × ℝ) ≠ (1, 0) ∧
      (((0:ℝ), (0:ℝ)) : ℝ × ℝ) ≠ (0, 1) ∧
      Voronoi2D_calCVTPartialDerivative (0, 0) (0, 0) 1 (1, 0) (0, 0) (0, 1) =
        .ok (specSelfJacobian (0, 0) (0, 0) 1 (1, 0) (0, 0) (0, 1),
          specCrossJacobian (0, 0) (0, 0) 1 (1, 0) (0, 0) (0, 1)) :=
  ⟨one_pos, by simp [Prod.ext_iff], by simp [Prod.ext_iff],
    claim_C1_jacobian_entries (0, 0) (0, 0) 1 (1, 0) (0, 0) (0, 1) one_pos
      (by simp [Prod.ext_iff]) (by simp [Prod.ext_iff])⟩

/-! ## Claim C10 -/

/-- Claim C10: constructing `grad_2d` from a 2x2 matrix and reading it back
through `npForm` or through the call operator yields the same matrix entry
for entry. -/
theorem claim_C10_grad2d_roundtrip (M : Mat2 ℝ) :
    (grad_2d.init M).npForm = M ∧ (grad_2d.init M).callOp = M := by
  cases M
  exact ⟨rfl, rfl⟩

/-- One step of bridging the source loop and the specification sums:
`a / h ^ 2 / 2 = a / (2 * h ^ 2)` (also when `h = 0`, both sides being 0). -/
theorem div_sq_div_two (a h : ℚ) : a / h ^ 2 / 2 = a / (2 * h ^ 2) := by
  rw [div_div, mul_comm]

/-- The accumulation loop of the source computes the specification sums
`S1` and `S2`, starting from an arbitrary accumulator. -/
theorem sumS_go (boundaryCoeff : List (ℚ × ℚ × ℚ)) (z : ℚ × ℚ) (s : ℚ) (p : ℚ × ℚ) :
    boundaryCoeff.foldl
      (fun acc row =>
        (acc.1 + 1 / marginOf row z,
          (acc.2.1 + row.1 / (marginOf row z) ^ 2 / 2,
            acc.2.2 + row.2.1 / (marginOf row z) ^ 2 / 2)))
      (s, p) =
    (s + specS1 boundaryCoeff z, vadd p (specS2 boundaryCoeff z)) := by
  induction boundaryCoeff generalizing s p with
  | nil => simp [specS1, specS2, vadd]
  | cons r tl ih =>
      rw [List.foldl_cons, ih]
      refine Prod.ext ?_ (Prod.ext ?_ ?_) <;>
        simp [specS1, specS2, vadd, div_sq_div_two, add_assoc]

/-- The fold of the source equals the pair of specification sums. -/
theorem sumS_eq (boundaryCoeff : List (ℚ × ℚ × ℚ)) (z : ℚ × ℚ) :
    sumS boundaryCoeff z = (specS1 boundaryCoeff z, specS2 boundaryCoeff z) := by
  have h := sumS_go boundaryCoeff z 0 (0, 0)
  simpa [sumS, vadd] using h

/-- With every margin positive, the any-zero-margin test of the model is
false. -/
theorem no_zero_margin {boundaryCoeff : List (ℚ × ℚ × ℚ)} {z : ℚ × ℚ}
    (h : ∀ row ∈ boundaryCoeff, marginOf row z ≠ 0) :
    ¬ (boundaryCoeff.any (fun row => decide (marginOf row z = 0)) = true) := by
  simp only [List.any_eq_true, decide_eq_true_eq]
  rintro ⟨r, hr, h0⟩
  exact h r hr h0

/-- With every margin positive, `S1` is nonnegative. -/
theorem specS1_nonneg {boundaryCoeff : List (ℚ × ℚ × ℚ)} {z : ℚ × ℚ}
    (h : ∀ row ∈ boundaryCoeff, 0 < marginOf row z) :
    0 ≤ specS1 boundaryCoeff z := by
  rw [specS1]
  apply List.sum_nonneg
  intro x hx
  obtain ⟨r, hr, hrx⟩ := List.mem_map.mp hx
  subst hrx
  exact le_of_lt (one_div_pos.mpr (h r hr))

/-! ## Claim C2 -/

/-- Claim C2: whenever every constraint margin at the agent position is
strictly positive and the quadratic form of `Q_2x2` is positive
semi-definite, `Voronoi2D_cal_dV_dz` returns a result whose Lyapunov value
`Vi` is nonnegative: the internal `assert(Vi >= 0)` cannot fail, for any
number of constraints and any neighbor count. -/
theorem claim_C2_Vi_nonneg (C z : ℚ × ℚ) (dCi_dzi : Mat2 ℚ)
    (dCjdzi_Arr : List (Mat2 ℚ)) (boundaryCoeff : List (ℚ × ℚ × ℚ))
    (Q_2x2 : Mat2 ℚ)
    (hmarg : ∀ row ∈ boundaryCoeff, 0 < marginOf row z)
    (hQ : ∀ v : ℚ × ℚ, 0 ≤ specQuadForm Q_2x2 v) :
    ∃ Vi g lst,
      Voronoi2D_cal_dV_dz C z dCi_dzi dCjdzi_Arr boundaryCoeff Q_2x2 =
        .ok (Vi, g, lst) ∧ 0 ≤ Vi := by
  have hany := no_zero_margin (fun r hr => ne_of_gt (hmarg r hr))
  have hS1 : 0 ≤ (sumS boundaryCoeff z).1 := by
    rw [sumS_eq]
    exact specS1_nonneg hmarg
  have hVi : 0 ≤ dot (vecMul (vsub z C) Q_2x2) (vsub z C) * (sumS boundaryCoeff z).1 / 2 :=
    div_nonneg (mul_nonneg (hQ (vsub z C)) hS1) (by norm_num)
  refine ⟨dot (vecMul (vsub z C) Q_2x2) (vsub z C) * (sumS boundaryCoeff z).1 / 2,
    vadd
      (mulVec (msub idMat2 dCi_dzi.transpose)
        (vsmul (sumS boundaryCoeff z).1 (mulVec Q_2x2 (vsub z C))))
      (vsmul (dot (vecMul (vsub z C) Q_2x2) (vsub z C)) (sumS boundaryCoeff z).2),
    dCjdzi_Arr.map (fun dCjdzi =>
      vneg (mulVec dCjdzi.transpose (vsmul (sumS boundaryCoeff z).1 (mulVec Q_2x2 (vsub z C))))),
    ?_, hVi⟩
  simp only [Voronoi2D_cal_dV_dz]
  rw [if_neg hany, if_neg (not_lt.mpr hVi)]

/-- Witness for claim C2 at a concrete feasible input. -/
theorem claim_C2_Vi_nonneg_witness :
    (∀ row ∈ ([((0:ℚ), (0:ℚ), (1:ℚ))] : List (ℚ × ℚ × ℚ)),
      0 < marginOf row (0, 0)) ∧
    (∀ v : ℚ × ℚ, 0 ≤ specQuadForm ⟨1, 0, 0, 1⟩ v) ∧
    (∃ Vi g lst,
      Voronoi2D_cal_dV_dz (0, 0) (0, 0) ⟨0, 0, 0, 0⟩ [] [(0, 0, 1)] ⟨1, 0, 0, 1⟩ =
        .ok (Vi, g, lst) ∧ 0 ≤ Vi) := by
  have h1 : ∀ row ∈ ([((0:ℚ), (0:ℚ), (1:ℚ))] : List (ℚ × ℚ × ℚ)),
      0 < marginOf row (0, 0) := by simp [marginOf]
  have h2 : ∀ v : ℚ × ℚ, 0 ≤ specQuadForm ⟨1, 0, 0, 1⟩ v := by
    intro v
    simp only [specQuadForm, dot, vecMul]
    nlinarith [mul_self_nonneg v.1, mul_self_nonneg v.2]
  exact ⟨h1, h2, claim_C2_Vi_nonneg (0, 0) (0, 0) ⟨0, 0, 0, 0⟩ [] [(0, 0, 1)] ⟨1, 0, 0, 1⟩ h1 h2⟩

/-! ## Claim C3 -/

/-- Counterexample to claim C3: at the position `(0, 0)` (equal to the
centroid) with constraint rows `(0, 0, 1)` (margin 1) and `(1, 0, -1)`
(margin -1, non positive), `Voronoi2D_cal_dV_dz` does not raise: the sum
`S1` is `1 + (-1) = 0`, the Lyapunov value is `0`, the assertion passes and
the call returns `[0, (0, 0), []]`. -/
theorem claim_C3_nonpositive_margin_counterexample :
    marginOf (1, 0, -1) ((0:ℚ), (0:ℚ)) ≤ 0 ∧
      Voronoi2D_cal_dV_dz (0, 0) (0, 0) ⟨0, 0, 0, 0⟩ []
          [(0, 0, 1), (1, 0, -1)] ⟨0, 0, 0, 0⟩ =
        .ok (0, (0, 0), []) := by
  constructor
  · simp [marginOf]
  · simp [Voronoi2D_cal_dV_dz, marginOf, sumS, dot, vecMul, mulVec, vsmul,
      vsub, vadd, vneg, msub, idMat2, Mat2.transpose]

/-- Evaluation lemma: when no margin is zero and the computed Lyapunov
value is not negative, `Voronoi2D_cal_dV_dz` returns the triple it
computes. -/
theorem cal_dV_dz_run (C z : ℚ × ℚ) (dCi_dzi : Mat2 ℚ)
    (dCjdzi_Arr : List (Mat2 ℚ)) (boundaryCoeff : List (ℚ × ℚ × ℚ))
    (Q_2x2 : Mat2 ℚ)
    (hnz : ∀ row ∈ boundaryCoeff, marginOf row z ≠ 0)
    (hVi : ¬ (dot (vecMul (vsub z C) Q_2x2) (vsub z C) * (sumS boundaryCoeff z).1 / 2 < 0)) :
    Voronoi2D_cal_dV_dz C z dCi_dzi dCjdzi_Arr boundaryCoeff Q_2x2 =
      .ok (dot (vecMul (vsub z C) Q_2x2) (vsub z C) * (sumS boundaryCoeff z).1 / 2,
        vadd
          (mulVec (msub idMat2 dCi_dzi.transpose)
            (vsmul (sumS boundaryCoeff z).1 (mulVec Q_2x2 (vsub z C))))
          (vsmul (dot (vecMul (vsub z C) Q_2x2) (vsub z C)) (sumS boundaryCoeff z).2),
        dCjdzi_Arr.map (fun dCjdzi =>
          vneg (mulVec dCjdzi.transpose
            (vsmul (sumS boundaryCoeff z).1 (mulVec Q_2x2 (vsub z C)))))) := by
  simp only [Voronoi2D_cal_dV_dz]
  rw [if_neg (no_zero_margin hnz), if_neg hVi]

/-- Claim C3 amended: a non positive margin does not by itself make
`Voronoi2D_cal_dV_dz` raise.  A margin that is exactly zero faults the
division `1/hj`; with every margin nonzero the call raises only when the
computed Lyapunov value is negative, and in particular whenever the agent
position equals its centroid the call returns a result (with `Vi = 0`)
regardless of the margin signs. -/
theorem claim_C3_nonpositive_margin_amended (C z : ℚ × ℚ) (dCi_dzi : Mat2 ℚ)
    (dCjdzi_Arr : List (Mat2 ℚ)) (boundaryCoeff : List (ℚ × ℚ × ℚ))
    (Q_2x2 : Mat2 ℚ)
    (hnz : ∀ row ∈ boundaryCoeff, marginOf row z ≠ 0) (hzC : z = C) :
    ∀ e, Voronoi2D_cal_dV_dz C z dCi_dzi dCjdzi_Arr boundaryCoeff Q_2x2 ≠ .error e := by
  subst hzC
  have h0 : dot (vecMul (vsub z z) Q_2x2) (vsub z z) = 0 := by
    simp [vsub, dot, vecMul]
  have hVi : ¬ (dot (vecMul (vsub z z) Q_2x2) (vsub z z) * (sumS boundaryCoeff z).1 / 2 < 0) := by
    rw [h0]
    simp
  intro e
  rw [cal_dV_dz_run _ _ _ _ _ _ hnz hVi]
  simp

/-- Witness for the amended claim C3: one strictly negative margin, agent
at its centroid, and the call returns (neither fault is produced). -/
theorem claim_C3_nonpositive_margin_amended_witness :
    (∀ row ∈ ([((1:ℚ), (0:ℚ), (-1:ℚ))] : List (ℚ × ℚ × ℚ)),
      marginOf row (0, 0) ≠ 0) ∧
    Voronoi2D_cal_dV_dz (0, 0) (0, 0) ⟨0, 0, 0, 0⟩ [] [(1, 0, -1)] ⟨1, 0, 0, 1⟩ ≠
      .error CtrlFault.divisionByZero ∧
    Voronoi2D_cal_dV_dz (0, 0) (0, 0) ⟨0, 0, 0, 0⟩ [] [(1, 0, -1)] ⟨1, 0, 0, 1⟩ ≠
      .error CtrlFault.assertionFailed := by
  have h1 : ∀ row ∈ ([((1:ℚ), (0:ℚ), (-1:ℚ))] : List (ℚ × ℚ × ℚ)),
      marginOf row (0, 0) ≠ 0 := by simp [marginOf]
  exact ⟨h1,
    claim_C3_nonpositive_margin_amended (0, 0) (0, 0) ⟨0, 0, 0, 0⟩ [] [(1, 0, -1)]
      ⟨1, 0, 0, 1⟩ h1 rfl CtrlFault.divisionByZero,
    claim_C3_nonpositive_margin_amended (0, 0) (0, 0) ⟨0, 0, 0, 0⟩ [] [(1, 0, -1)]
      ⟨1, 0, 0, 1⟩ h1 rfl CtrlFault.assertionFailed⟩

/-! ## Claim C7 -/

/-- Claim C7: on every feasible input (all margins strictly positive), the
own position gradient returned by `Voronoi2D_cal_dV_dz` equals
`(I - selfJacobian^t) (Q (z - C) S1) + S2 ((z - C)^t Q (z - C))` with
`S1 = sum of 1/h_k` and `S2 = sum of (a_k, b_k) / (2 h_k^2)`. -/
theorem claim_C7_self_gradient (C z : ℚ × ℚ) (dCi_dzi : Mat2 ℚ)
    (dCjdzi_Arr : List (Mat2 ℚ)) (boundaryCoeff : List (ℚ × ℚ × ℚ))
    (Q_2x2 : Mat2 ℚ)
    (hmarg : ∀ row ∈ boundaryCoeff, 0 < marginOf row z)
    (Vi : ℚ) (g : ℚ × ℚ) (lst : List (ℚ × ℚ))
    (hok : Voronoi2D_cal_dV_dz C z dCi_dzi dCjdzi_Arr boundaryCoeff Q_2x2 =
      .ok (Vi, g, lst)) :
    g = specGradSelf C z dCi_dzi boundaryCoeff Q_2x2 := by
  simp only [Voronoi2D_cal_dV_dz] at hok
  rw [if_neg (no_zero_margin (fun r hr => ne_of_gt (hmarg r hr)))] at hok
  split at hok
  · exact absurd hok (by simp)
  · simp only [Except.ok.injEq, Prod.mk.injEq] at hok
    rw [← hok.2.1]
    simp [specGradSelf, specQuadForm, sumS_eq]

/-- Witness for claim C7 at a concrete feasible input. -/
theorem claim_C7_self_gradient_witness :
    (∀ row ∈ ([((0:ℚ), (0:ℚ), (1:ℚ))] : List (ℚ × ℚ × ℚ)),
      0 < marginOf row (0, 0)) ∧
    Voronoi2D_cal_dV_dz (0, 0) (0, 0) ⟨0, 0, 0, 0⟩ [] [(0, 0, 1)] ⟨1, 0, 0, 1⟩ =
      .ok (0, (0, 0), []) ∧
    (((0:ℚ), (0:ℚ)) : ℚ × ℚ) =
      specGradSelf (0, 0) (0, 0) ⟨0, 0, 0, 0⟩ [(0, 0, 1)] ⟨1, 0, 0, 1⟩ := by
  have h1 : ∀ row ∈ ([((0:ℚ), (0:ℚ), (1:ℚ))] : List (ℚ × ℚ × ℚ)),
      0 < marginOf row (0, 0) := by simp [marginOf]
  have h2 : Voronoi2D_cal_dV_dz (0, 0) (0, 0) ⟨0, 0, 0, 0⟩ [] [(0, 0, 1)] ⟨1, 0, 0, 1⟩ =
      .ok (0, (0, 0), []) := by
    simp [Voronoi2D_cal_dV_dz, marginOf, sumS, dot, vecMul, mulVec, vsmul,
      vsub, vadd, vneg, msub, idMat2, Mat2.transpose]
  exact ⟨h1, h2, claim_C7_self_gradient (0, 0) (0, 0) ⟨0, 0, 0, 0⟩ [] [(0, 0, 1)]
    ⟨1, 0, 0, 1⟩ h1 0 (0, 0) [] h2⟩

/-! ## Claim C8 -/

/-- Claim C8: on every feasible input, the per neighbor gradient list
returned by `Voronoi2D_cal_dV_dz` has exactly the length of the cross
Jacobian list and is, in the same order, the list of values
`-(J_j)^t (Q (z - C) S1)`. -/
theorem claim_C8_neighbor_gradient_list (C z : ℚ × ℚ) (dCi_dzi : Mat2 ℚ)
    (dCjdzi_Arr : List (Mat2 ℚ)) (boundaryCoeff : List (ℚ × ℚ × ℚ))
    (Q_2x2 : Mat2 ℚ)
    (hmarg : ∀ row ∈ boundaryCoeff, 0 < marginOf row z)
    (Vi : ℚ) (g : ℚ × ℚ) (lst : List (ℚ × ℚ))
    (hok : Voronoi2D_cal_dV_dz C z dCi_dzi dCjdzi_Arr boundaryCoeff Q_2x2 =
      .ok (Vi, g, lst)) :
    lst.length = dCjdzi_Arr.length ∧
      lst = dCjdzi_Arr.map (fun J => specGradNeighbor C z J boundaryCoeff Q_2x2) := by
  simp only [Voronoi2D_cal_dV_dz] at hok
  rw [if_neg (no_zero_margin (fun r hr => ne_of_gt (hmarg r hr)))] at hok
  split at hok
  · exact absurd hok (by simp)
  · simp only [Except.ok.injEq, Prod.mk.injEq] at hok
    rw [← hok.2.2]
    constructor
    · exact List.length_map _ _
    · simp [specGradNeighbor, sumS_eq]

/-- Witness for claim C8 at a concrete feasible input with one neighbor. -/
theorem claim_C8_neighbor_gradient_list_witness :
    (∀ row ∈ ([((0:ℚ), (0:ℚ), (1:ℚ))] : List (ℚ × ℚ × ℚ)),
      0 < marginOf row (0, 0)) ∧
    Voronoi2D_cal_dV_dz (0, 0) (0, 0) ⟨0, 0, 0, 0⟩ [⟨1, 0, 0, 1⟩] [(0, 0, 1)]
        ⟨1, 0, 0, 1⟩ =
      .ok (0, (0, 0), [(0, 0)]) ∧
    ([((0:ℚ), (0:ℚ))].length = [(⟨1, 0, 0, 1⟩ : Mat2 ℚ)].length ∧
      [((0:ℚ), (0:ℚ))] = [(⟨1, 0, 0, 1⟩ : Mat2 ℚ)].map
        (fun J => specGradNeighbor (0, 0) (0, 0) J [(0, 0, 1)] ⟨1, 0, 0, 1⟩)) := by
  have h1 : ∀ row ∈ ([((0:ℚ), (0:ℚ), (1:ℚ))] : List (ℚ × ℚ × ℚ)),
      0 < marginOf row (0, 0) := by simp [marginOf]
  have h2 : Voronoi2D_cal_dV_dz (0, 0) (0, 0) ⟨0, 0, 0, 0⟩ [⟨1, 0, 0, 1⟩]
      [(0, 0, 1)] ⟨1, 0, 0, 1⟩ = .ok (0, (0, 0), [(0, 0)]) := by
    simp [Voronoi2D_cal_dV_dz, marginOf, sumS, dot, vecMul, mulVec, vsmul,
      vsub, vadd, vneg, msub, idMat2, Mat2.transpose]
  exact ⟨h1, h2, claim_C8_neighbor_gradient_list (0, 0) (0, 0) ⟨0, 0, 0, 0⟩
    [⟨1, 0, 0, 1⟩] [(0, 0, 1)] ⟨1, 0, 0, 1⟩ h1 0 (0, 0) [(0, 0)] h2⟩

/-! ## Claim C4 -/

/-- Counterexample to claim C4: with the agent and the neighbor both at
`(0, 0)`, the differentiator does not raise a degenerate geometry domain
error: it hits the unguarded division by the zero inter agent distance
(modelled as the division by zero fault; with the numpy inputs of the
repository tests the division is even silent). -/
theorem claim_C4_coincident_positions_counterexample :
    Voronoi2D_calCVTPartialDerivative (0, 0) (0, 0) 1 (0, 0) (0, 0) (0, 1) =
        .error .divisionByZero ∧
      Voronoi2D_calCVTPartialDerivative (0, 0) (0, 0) 1 (0, 0) (0, 0) (0, 1) ≠
        .error .degenerateGeometry := by
  have h : Voronoi2D_calCVTPartialDerivative (0, 0) (0, 0) 1 (0, 0) (0, 0) (0, 1) =
      .error .divisionByZero := by
    have hc : Real.sqrt (((((0:ℝ), (0:ℝ)) : ℝ × ℝ).1 - (((0:ℝ), (0:ℝ)) : ℝ × ℝ).1) ^ 2 +
        ((((0:ℝ), (0:ℝ)) : ℝ × ℝ).2 - (((0:ℝ), (0:ℝ)) : ℝ × ℝ).2) ^ 2) = 0 := by
      simp
    simp only [Voronoi2D_calCVTPartialDerivative]
    rw [if_pos hc]
  refine ⟨h, ?_⟩
  rw [h]
  simp

/-- Claim C4 amended: the differentiator has no degeneracy check; with
`selfPos = neighborPos` the inter agent distance is zero and every kernel
hits the unguarded division by zero (a ZeroDivisionError for Python scalar
floats, a silent non finite value for the numpy inputs of the repository
tests), never a deliberate degenerate geometry domain error. -/
theorem claim_C4_coincident_positions_amended (thisCoord_2d thisCVT_2d : ℝ × ℝ)
    (mVi : ℝ) (vertex1_2d vertex2_2d : ℝ × ℝ) :
    Voronoi2D_calCVTPartialDerivative thisCoord_2d thisCVT_2d mVi thisCoord_2d
        vertex1_2d vertex2_2d =
      .error .divisionByZero := by
  have hc : Real.sqrt ((thisCoord_2d.1 - thisCoord_2d.1) ^ 2 +
      (thisCoord_2d.2 - thisCoord_2d.2) ^ 2) = 0 := by
    simp
  simp only [Voronoi2D_calCVTPartialDerivative]
  rw [if_pos hc]

/-! ## Claim C5 -/

/-- Counterexample to claim C5: with a zero length shared edge (both
vertices `(2, 3)`) and otherwise valid inputs, the differentiator raises
nothing: the arc length factor is zero, every integral vanishes and the
call returns two zero matrices. -/
theorem claim_C5_zero_length_edge_counterexample :
    Voronoi2D_calCVTPartialDerivative (0, 0) (0, 0) 1 (1, 0) (2, 3) (2, 3) =
      .ok (⟨0, 0, 0, 0⟩, ⟨0, 0, 0, 0⟩) := by
  simp only [Voronoi2D_calCVTPartialDerivative]
  split_ifs with h1 h2
  · exfalso
    rw [Real.sqrt_eq_zero'] at h1
    norm_num at h1
  · exfalso
    norm_num at h2
  · norm_num [dCix_dzix_func, dCiy_dzix_func, dCix_dziy_func, dCiy_dziy_func,
      dCix_dzjx_func, dCiy_dzjx_func, dCix_dzjy_func, dCiy_dzjy_func,
      dq__dZix_n_func, dq__dZiy_n_func, dq__dZjx_n_func, dq__dZjy_n_func,
      XtoT_func, YtoT_func, Real.sqrt_zero, intervalIntegral.integral_zero]

/-- Claim C5 amended: with a zero length shared edge the differentiator
does not raise; the arc length factor `dqTodtParam` is zero, every
quadrature integrand is identically zero, and (given a nonzero inter agent
distance and nonzero cell mass, so that no division faults) the call
returns two zero matrices. -/
theorem claim_C5_zero_length_edge_amended (thisCoord_2d thisCVT_2d : ℝ × ℝ)
    (mVi : ℝ) (adjCoord_2d vertex_2d : ℝ × ℝ)
    (hz : thisCoord_2d ≠ adjCoord_2d) (hm : mVi ≠ 0) :
    Voronoi2D_calCVTPartialDerivative thisCoord_2d thisCVT_2d mVi adjCoord_2d
        vertex_2d vertex_2d =
      .ok (⟨0, 0, 0, 0⟩, ⟨0, 0, 0, 0⟩) := by
  have hd := dist_sqrt_ne_zero hz
  have hL : Real.sqrt ((vertex_2d.1 - vertex_2d.1) ^ 2 +
      (vertex_2d.2 - vertex_2d.2) ^ 2) = 0 := by simp
  simp only [Voronoi2D_calCVTPartialDerivative]
  rw [if_neg hd, if_neg hm]
  simp only [hL]
  simp [dCix_dzix_func, dCiy_dzix_func, dCix_dziy_func, dCiy_dziy_func,
    dCix_dzjx_func, dCiy_dzjx_func, dCix_dzjy_func, dCiy_dzjy_func,
    dq__dZix_n_func, dq__dZiy_n_func, dq__dZjx_n_func, dq__dZjy_n_func,
    XtoT_func, YtoT_func, intervalIntegral.integral_zero]

/-- Witness for the amended claim C5 at a concrete input. -/
theorem claim_C5_zero_length_edge_amended_witness :
    ((((0:ℝ), (0:ℝ)) : ℝ × ℝ) ≠ (1, 0)) ∧ (1:ℝ) ≠ 0 ∧
      Voronoi2D_calCVTPartialDerivative (0, 0) (0, 0) 1 (1, 0) (5, 7) (5, 7) =
        .ok (⟨0, 0, 0, 0⟩, ⟨0, 0, 0, 0⟩) :=
  ⟨by simp [Prod.ext_iff], one_ne_zero,
    claim_C5_zero_length_edge_amended (0, 0) (0, 0) 1 (1, 0) (5, 7)
      (by simp [Prod.ext_iff]) one_ne_zero⟩

/-! ## Claim C6 -/

/-- Counterexample to claim C6: with negative cell mass `-1` and otherwise
valid inputs, the differentiator raises no domain error and returns a
normal result (Jacobian matrices). -/
theorem claim_C6_nonpositive_mass_counterexample :
    (-1:ℝ) ≤ 0 ∧
      exceptIsOk (Voronoi2D_calCVTPartialDerivative (0, 0) (0, 0) (-1) (1, 0)
        (0, 0) (0, 1)) = true := by
  refine ⟨by norm_num, ?_⟩
  simp only [Voronoi2D_calCVTPartialDerivative]
  split_ifs with h1 h2
  · exfalso
    rw [Real.sqrt_eq_zero'] at h1
    norm_num at h1
  · exfalso
    norm_num at h2
  · rfl

/-- Claim C6 amended: the differentiator never examines the cell mass; a
strictly negative `mVi` is divided by without complaint and the call
returns the two matrices (a zero mass would instead fault the division
itself).  No domain error exists in the code. -/
theorem claim_C6_nonpositive_mass_amended (thisCoord_2d thisCVT_2d : ℝ × ℝ)
    (mVi : ℝ) (adjCoord_2d vertex1_2d vertex2_2d : ℝ × ℝ)
    (hz : thisCoord_2d ≠ adjCoord_2d) (hm : mVi < 0) :
    ∃ selfJ crossJ,
      Voronoi2D_calCVTPartialDerivative thisCoord_2d thisCVT_2d mVi adjCoord_2d
        vertex1_2d vertex2_2d = .ok (selfJ, crossJ) := by
  have hd := dist_sqrt_ne_zero hz
  have hm' : mVi ≠ 0 := ne_of_lt hm
  apply Exists.intro
  apply Exists.intro
  simp only [Voronoi2D_calCVTPartialDerivative]
  rw [if_neg hd, if_neg hm']

/-- Witness for the amended claim C6 at a concrete input. -/
theorem claim_C6_nonpositive_mass_amended_witness :
    ((((0:ℝ), (0:ℝ)) : ℝ × ℝ) ≠ (1, 0)) ∧ (-1:ℝ) < 0 ∧
      (∃ selfJ crossJ,
        Voronoi2D_calCVTPartialDerivative (0, 0) (0, 0) (-1) (1, 0) (0, 0) (0, 1) =
          .ok (selfJ, crossJ)) :=
  ⟨by simp [Prod.ext_iff], neg_one_lt_zero,
    claim_C6_nonpositive_mass_amended (0, 0) (0, 0) (-1) (1, 0) (0, 0) (0, 1)
      (by simp [Prod.ext_iff]) neg_one_lt_zero⟩

/-! ## Claim C9 -/

/-- Counterexample to claim C9: at `w0 = 0` (with `P = 1`, `eps = 1`,
heading `0`, zero gradient) the claimed open interval
`(w0 - P |w0|, w0 + P |w0|)` is empty, and the output `0` does not lie
strictly inside it. -/
theorem claim_C9_bounded_control_counterexample :
    ¬ ((0:ℝ) - 1 * |(0:ℝ)| < compute_Control_Input 0 0 (0, 0) 1 1 ∧
      compute_Control_Input 0 0 (0, 0) 1 1 < 0 + 1 * |(0:ℝ)|) := by
  intro h
  have hv : compute_Control_Input 0 0 (0, 0) 1 1 = 0 := by
    simp [compute_Control_Input, sigmoid_func]
  rw [hv] at h
  simp at h

/-- Claim C9 amended: for every finite gradient, heading and `w0`, with
`eps > 0`, the output of `compute_Control_Input` equals
`w0 + P w0 p / (|p| + eps)` with `p` the projection of the gradient onto
the heading direction; and provided additionally `P > 0` and `w0` is
nonzero (at `w0 = 0` the claimed open interval is empty while the output
is exactly `w0`), the output lies strictly inside
`(w0 - P |w0|, w0 + P |w0|)`. -/
theorem claim_C9_bounded_control_amended (w0 theta : ℝ) (dV_dzi : ℝ × ℝ)
    (P eps : ℝ) (heps : 0 < eps) (hP : 0 < P) (hw : w0 ≠ 0) :
    compute_Control_Input w0 theta dV_dzi P eps =
      w0 + P * w0 * ((dV_dzi.1 * Real.cos theta + dV_dzi.2 * Real.sin theta) /
        (|dV_dzi.1 * Real.cos theta + dV_dzi.2 * Real.sin theta| + eps)) ∧
    w0 - P * |w0| < compute_Control_Input w0 theta dV_dzi P eps ∧
    compute_Control_Input w0 theta dV_dzi P eps < w0 + P * |w0| := by
  refine ⟨rfl, ?_, ?_⟩ <;>
  · have hden : 0 < |dV_dzi.1 * Real.cos theta + dV_dzi.2 * Real.sin theta| + eps :=
      add_pos_of_nonneg_of_pos (abs_nonneg _) heps
    have hs : |sigmoid_func (dV_dzi.1 * Real.cos theta + dV_dzi.2 * Real.sin theta) eps| < 1 := by
      rw [sigmoid_func, abs_div, abs_of_pos hden, div_lt_one hden]
      linarith [le_abs_self (dV_dzi.1 * Real.cos theta + dV_dzi.2 * Real.sin theta)]
    have hPw : 0 < P * |w0| := mul_pos hP (abs_pos.mpr hw)
    have hdiff : compute_Control_Input w0 theta dV_dzi P eps - w0 =
        P * w0 * sigmoid_func (dV_dzi.1 * Real.cos theta + dV_dzi.2 * Real.sin theta) eps := by
      rw [compute_Control_Input]
      ring
    have hbound : |compute_Control_Input w0 theta dV_dzi P eps - w0| < P * |w0| := by
      rw [hdiff, abs_mul, abs_mul, abs_of_pos hP]
      calc P * |w0| * |sigmoid_func (dV_dzi.1 * Real.cos theta + dV_dzi.2 * Real.sin theta) eps|
          < P * |w0| * 1 := by
            exact mul_lt_mul_of_pos_left hs hPw
        _ = P * |w0| := mul_one _
    have := abs_lt.mp hbound
    linarith [this.1, this.2]

/-- Witness for the amended claim C9 at a concrete input. -/
theorem claim_C9_bounded_control_amended_witness :
    (0:ℝ) < 1 ∧ (0:ℝ) < 1 ∧ (1:ℝ) ≠ 0 ∧
      (compute_Control_Input 1 0 (0, 0) 1 1 =
        1 + 1 * 1 * (((0:ℝ) * Real.cos 0 + (0:ℝ) * Real.sin 0) /
          (|(0:ℝ) * Real.cos 0 + (0:ℝ) * Real.sin 0| + 1)) ∧
      (1:ℝ) - 1 * |(1:ℝ)| < compute_Control_Input 1 0 (0, 0) 1 1 ∧
      compute_Control_Input 1 0 (0, 0) 1 1 < 1 + 1 * |(1:ℝ)|) :=
  ⟨one_pos, one_pos, one_ne_zero,
    claim_C9_bounded_control_amended 1 0 (0, 0) 1 1 one_pos one_pos one_ne_zero⟩
